import Mathlib

set_option maxRecDepth 10000

/-!
Verification of the expense-tracker service in `src/main.py`.

The program stores expense rows in a single SQLite table
`expenses(id INTEGER PRIMARY KEY AUTOINCREMENT, date TEXT, amount REAL,
category TEXT, subcategory TEXT, note TEXT)` and exposes three tools
(`add_expense`, `list_expenses`, `summarize`) plus one resource
(`categories`).

Embedding choices:
* a table state is a list of rows together with the AUTOINCREMENT
  counter (`next_id`); SQLite's AUTOINCREMENT hands out `next_id` and
  bumps it, and never reuses a value even after a `DELETE`;
* SQL `REAL` amounts are modelled as exact rationals (`ℚ`);
* SQLite compares `TEXT` values with the binary collation, i.e.
  byte-wise on the UTF-8 encoding; on `List Char` this is the
  lexicographic order by code point (`lexLt` below), which agrees with
  byte order on valid UTF-8;
* `ORDER BY` is modelled by sorting with a total, transitive relation
  matching the SQL sort keys (insertion sort; SQLite promises some
  order consistent with the keys, which any such sort realises);
* the `try ... except` wrapper around each tool body is modelled by an
  explicit `fail : Option String` parameter: `some e` means the `try`
  block raised an exception rendering as `e`.  In the program as
  written, every tool call raises: each body opens with `async with
  sqlite3.connect(DB_PATH)`, and the synchronous `sqlite3.Connection`
  does not implement the asynchronous context manager protocol, so a
  `TypeError` is raised before any SQL statement executes.  The
  `fail = none` branch therefore embeds the body the author wrote after
  the `async with` — dead code at runtime — and a real call to a tool
  is its `fail = some msg` instance, packaged below as
  `add_expense_call`, `list_expenses_call` and `summarize_call`, where
  `msg` is the runtime rendering of that `TypeError`.  The `*_sql`
  functions embed the SQL contained in the source; theorems about them
  describe what the queries would compute were they ever reached.
-/

/-- One row of the `expenses` table. -/
structure Row where
  id : Nat
  date : String
  amount : ℚ
  category : String
  subcategory : String
  note : String
deriving DecidableEq

/-- The persistent state: the rows of `expenses` plus the
AUTOINCREMENT counter (the next id SQLite will assign). -/
structure DB where
  rows : List Row
  next_id : Nat
deriving DecidableEq

/-- Well-formedness of a table state reachable through SQLite: every
stored id was assigned before the current AUTOINCREMENT counter. -/
def DB.WF (s : DB) : Prop :=
  ∀ r ∈ s.rows, r.id < s.next_id

/-- Lexicographic (byte-wise / code-point-wise) strict order on
character lists: the comparison SQLite's binary collation applies to
`TEXT` values. -/
def lexLt : List Char → List Char → Bool
  | _, [] => false
  | [], _ :: _ => true
  | a :: as, b :: bs => decide (a.toNat < b.toNat) || (a == b && lexLt as bs)

/-- `strLtB a b`: `a` is strictly below `b` in the lexicographic
string order. -/
def strLtB (a b : String) : Bool :=
  lexLt a.data b.data

/-- `strLeB a b`: `a ≤ b` in the lexicographic string order. -/
def strLeB (a b : String) : Bool :=
  !(strLtB b a)

/-- The `WHERE date BETWEEN ? AND ?` test from `list_expenses` and
`summarize` (SQLite `BETWEEN` is inclusive on both ends). -/
def inRange (start_date end_date : String) (r : Row) : Bool :=
  strLeB start_date r.date && strLeB r.date end_date

/-- The sort order requested by `ORDER BY date DESC, id DESC` in
`list_expenses`: later dates first, ties broken by larger id first. -/
def RowRel (r1 r2 : Row) : Prop :=
  strLtB r2.date r1.date = true ∨ (r1.date = r2.date ∧ r2.id ≤ r1.id)

instance : DecidableRel RowRel := fun r1 r2 =>
  inferInstanceAs (Decidable (strLtB r2.date r1.date = true ∨ (r1.date = r2.date ∧ r2.id ≤ r1.id)))

/-- `INSERT INTO expenses(date, amount, category, subcategory, note)
VALUES (?,?,?,?,?)` from `add_expense`: the new row receives the
AUTOINCREMENT id, which `cur.lastrowid` reports back. -/
def add_expense_sql (s : DB) (date : String) (amount : ℚ)
    (category subcategory note : String) : Nat × DB :=
  (s.next_id,
   ⟨s.rows ++ [⟨s.next_id, date, amount, category, subcategory, note⟩],
    s.next_id + 1⟩)

/-- `SELECT id, date, amount, category, subcategory, note FROM expenses
WHERE date BETWEEN ? AND ? ORDER BY date DESC, id DESC` from
`list_expenses`. -/
def list_expenses_sql (s : DB) (start_date end_date : String) : List Row :=
  List.insertionSort RowRel (s.rows.filter (inRange start_date end_date))

/-- One aggregate row produced by `summarize`:
`SELECT category, SUM(amount) AS total_amount, COUNT(*) as count`. -/
structure Agg where
  category : String
  total_amount : ℚ
  count : Nat
deriving DecidableEq

/-- The sort order requested by `ORDER BY total_amount DESC` in
`summarize`. -/
def AggRel (g1 g2 : Agg) : Prop :=
  g2.total_amount ≤ g1.total_amount

instance : DecidableRel AggRel := fun g1 g2 =>
  inferInstanceAs (Decidable (g2.total_amount ≤ g1.total_amount))

/-- The `summarize` query: range filter, then — only when the Python
value `category` is truthy, i.e. not `None` and not the empty string —
`AND category = ?`, then `GROUP BY category ORDER BY total_amount
DESC`. -/
def summarize_sql (s : DB) (start_date end_date : String)
    (category : Option String) : List Agg :=
  let base := s.rows.filter (inRange start_date end_date)
  let rows := match category with
    | some c => if c = "" then base else base.filter (fun r => r.category == c)
    | none => base
  let cats := (rows.map (fun r => r.category)).dedup
  List.insertionSort AggRel (cats.map (fun c =>
    ⟨c,
     ((rows.filter (fun r => r.category == c)).map (fun r => r.amount)).sum,
     (rows.filter (fun r => r.category == c)).length⟩))

/-- The structured error payload every tool returns from its `except`
clause: `{"status": "error", "message": str(e)}`. -/
structure ErrorPayload where
  status : String
  message : String
deriving DecidableEq

/-- The success payload of `add_expense`:
`{"status": "success", "id": cur.lastrowid, "message": ...}`. -/
structure AddOk where
  status : String
  id : Nat
  message : String
deriving DecidableEq

/-- The `add_expense` tool body. `fail = some e` means the `try` block
raised an exception rendering as `e`; the body then returns the
structured error payload instead of propagating it.  The `none` branch
is the success path as written in the source; at runtime it is dead
code, because the `async with` at the top of the `try` block always
raises first (see `add_expense_call`). -/
def add_expense (fail : Option String) (s : DB) (date : String) (amount : ℚ)
    (category subcategory note : String) : Except ErrorPayload (AddOk × DB) :=
  match fail with
  | some e => .error ⟨"error", e⟩
  | none =>
    let r := add_expense_sql s date amount category subcategory note
    .ok (⟨"success", r.1, "Expense added successfully"⟩, r.2)

/-- The `list_expenses` tool body, with the same `try ... except`
model; its `none` branch is likewise dead code at runtime (see
`list_expenses_call`). -/
def list_expenses (fail : Option String) (s : DB)
    (start_date end_date : String) : Except ErrorPayload (List Row) :=
  match fail with
  | some e => .error ⟨"error", e⟩
  | none => .ok (list_expenses_sql s start_date end_date)

/-- The `summarize` tool body, with the same `try ... except` model;
its `none` branch is likewise dead code at runtime (see
`summarize_call`). -/
def summarize (fail : Option String) (s : DB) (start_date end_date : String)
    (category : Option String) : Except ErrorPayload (List Agg) :=
  match fail with
  | some e => .error ⟨"error", e⟩
  | none => .ok (summarize_sql s start_date end_date category)

/-- A real call to the `add_expense` tool.  `async with
sqlite3.connect(DB_PATH)` raises `TypeError` — the synchronous
`sqlite3.Connection` does not support the asynchronous context manager
protocol — before any SQL statement executes, so every call is the
`fail = some msg` instance of the body, where `msg` is the runtime
rendering of that `TypeError`.  No table state is ever touched and no
expense is ever persisted through this tool. -/
def add_expense_call (msg : String) (s : DB) (date : String) (amount : ℚ)
    (category subcategory note : String) : Except ErrorPayload (AddOk × DB) :=
  add_expense (some msg) s date amount category subcategory note

/-- A real call to the `list_expenses` tool: it fails at `async with`
the same way, so it returns the structured error payload and never a
list of records. -/
def list_expenses_call (msg : String) (s : DB)
    (start_date end_date : String) : Except ErrorPayload (List Row) :=
  list_expenses (some msg) s start_date end_date

/-- A real call to the `summarize` tool: it fails at `async with` the
same way, before the query string is even built, so it returns the
structured error payload and never a list of aggregate rows. -/
def summarize_call (msg : String) (s : DB) (start_date end_date : String)
    (category : Option String) : Except ErrorPayload (List Agg) :=
  summarize (some msg) s start_date end_date category

/-- `init_db`'s effect on an existing table state (the
`CREATE TABLE IF NOT EXISTS` is a no-op there): insert the sentinel row
`('2000-01-01', 0, 'test')` (subcategory and note take their `DEFAULT ''`),
then `DELETE FROM expenses WHERE category = 'test'`.  The AUTOINCREMENT
counter is bumped by the insert and is not lowered by the delete. -/
def init_db (s : DB) : DB :=
  let afterInsert : DB :=
    ⟨s.rows ++ [⟨s.next_id, "2000-01-01", 0, "test", "", ""⟩], s.next_id + 1⟩
  ⟨afterInsert.rows.filter (fun r => !(r.category == "test")), afterInsert.next_id⟩

/-- A storage operation that writes: a successful `add_expense` call or
a run of `init_db` (the only place a row is ever deleted). -/
inductive SOp where
  | addE (date : String) (amount : ℚ) (category subcategory note : String) : SOp
  | initE : SOp
deriving DecidableEq

/-- Run a sequence of write operations, collecting the ids returned by
the `add_expense` calls in order. -/
def runOps (s : DB) : List SOp → List Nat × DB
  | [] => ([], s)
  | SOp.addE d amt c su n :: ops =>
    let r := add_expense_sql s d amt c su n
    let rest := runOps r.2 ops
    (r.1 :: rest.1, rest.2)
  | SOp.initE :: ops => runOps (init_db s) ops

/-! ### The category resource

`categories` serves a JSON document: the sidecar file's raw contents if
the file exists, else `json.dumps(default_categories, indent=2)`, and on
any failure the f-string `'\x7b"error": "<str(e)>"\x7d'` built without any
escaping.  To state what "valid JSON" means we model a JSON value type,
python's `json.dumps(..., indent=2)` serializer, and a standard JSON
reader used as a well-formedness checker (it has no `\uXXXX` escape
support, so it is slightly stricter than full JSON; no theorem below
relies on it accepting such escapes). -/

/-!
A JSON document type.  Numbers keep their source lexeme.  Arrays and
objects carry their own list spines (`JsonArr`, `JsonObj`) so that all
recursion over documents is plainly structural.
-/

mutual

/-- A JSON value. -/
inductive Json where
  | str (s : String)
  | num (lit : String)
  | bool (b : Bool)
  | null
  | arr (elems : JsonArr)
  | obj (members : JsonObj)

/-- Spine of a JSON array. -/
inductive JsonArr where
  | nil
  | cons (head : Json) (tail : JsonArr)

/-- Spine of a JSON object. -/
inductive JsonObj where
  | nil
  | cons (key : String) (val : Json) (tail : JsonObj)

end

/-- Lower-case hexadecimal digit. -/
def hexDigit (n : Nat) : Char :=
  if n < 10 then Char.ofNat (48 + n) else Char.ofNat (87 + n)

/-- How `json.dumps` (with its default `ensure_ascii=True`) renders one
character inside a string literal: `"` and `\` get a backslash, the
common control characters use their short escapes, all other characters
outside the printable ASCII range `0x20`-`0x7e` become `\uXXXX`. -/
def escapeChar (c : Char) : List Char :=
  if c = '"' then ['\\', '"']
  else if c = '\\' then ['\\', '\\']
  else if c = '\n' then ['\\', 'n']
  else if c = '\t' then ['\\', 't']
  else if c = '\r' then ['\\', 'r']
  else if c.toNat = 8 then ['\\', 'b']
  else if c.toNat = 12 then ['\\', 'f']
  else if c.toNat < 32 || decide (126 < c.toNat) then
    ['\\', 'u', hexDigit (c.toNat / 4096 % 16), hexDigit (c.toNat / 256 % 16),
     hexDigit (c.toNat / 16 % 16), hexDigit (c.toNat % 16)]
  else [c]

/-- A JSON string literal as `json.dumps` writes it. -/
def quoteStr (s : String) : String :=
  ⟨'"' :: s.data.foldr (fun c acc => escapeChar c ++ acc) ['"']⟩

/-- The indentation prefix at nesting level `lvl` for `indent=2`. -/
def ind (lvl : Nat) : String :=
  ⟨List.replicate (2 * lvl) ' '⟩

mutual

/-- `json.dumps(value, indent=2)`: each non-empty container opens, puts
every item on its own line at the next indent level separated by `,`,
and closes on a fresh line; key and value are separated by `: `. -/
def render : Nat → Json → String
  | _, .str s => quoteStr s
  | _, .num lit => lit
  | _, .bool b => if b then "true" else "false"
  | _, .null => "null"
  | _, .arr .nil => "[]"
  | lvl, .arr (.cons x xs) =>
    "[\n" ++ ind (lvl + 1) ++ renderElems (lvl + 1) (.cons x xs) ++ "\n" ++ ind lvl ++ "]"
  | _, .obj .nil => "\x7b\x7d"
  | lvl, .obj (.cons k v ms) =>
    "\x7b\n" ++ ind (lvl + 1) ++ renderMembers (lvl + 1) (.cons k v ms) ++ "\n" ++ ind lvl ++ "\x7d"
termination_by structural _ j => j

/-- Array items, comma-separated, one per line (the `nil` case is never
reached from `render`, which handles the empty array itself). -/
def renderElems : Nat → JsonArr → String
  | _, .nil => ""
  | lvl, .cons x .nil => render lvl x
  | lvl, .cons x (.cons y ys) =>
    render lvl x ++ ",\n" ++ ind lvl ++ renderElems lvl (.cons y ys)
termination_by structural _ xs => xs

/-- Object members, comma-separated, one per line (the `nil` case is
never reached from `render`). -/
def renderMembers : Nat → JsonObj → String
  | _, .nil => ""
  | lvl, .cons k v .nil => quoteStr k ++ ": " ++ render lvl v
  | lvl, .cons k v (.cons k2 v2 ms) =>
    quoteStr k ++ ": " ++ render lvl v ++ ",\n" ++ ind lvl ++ renderMembers lvl (.cons k2 v2 ms)
termination_by structural _ ms => ms

end

/-- `json.dumps(j, indent=2)`. -/
def dumps (j : Json) : String :=
  render 0 j

/-- The hardcoded `default_categories` dictionary from `categories`. -/
def default_categories : Json :=
  Json.obj (.cons ("categories") (Json.arr
    (.cons (.str ("Food & Dining")) (.cons (.str ("Transportation"))
    (.cons (.str ("Shopping")) (.cons (.str ("Entertainment"))
    (.cons (.str ("Bills & Utilities")) (.cons (.str ("Healthcare"))
    (.cons (.str ("Travel")) (.cons (.str ("Education"))
    (.cons (.str ("Business")) (.cons (.str ("Other")) .nil))))))))))) .nil)

/-- The `categories` resource.  `fileExists`/`fileContent` describe the
sidecar file at `CATEGORIES_PATH`; `fail = some e` means a failure was
raised while checking for or reading the file, in which case the
`except` clause returns the unescaped f-string
`'\x7b"error": "<str(e)>"\x7d'`. -/
def categories (fileExists : Bool) (fileContent : String)
    (fail : Option String) : String :=
  match fail with
  | some e => "\x7b\"error\": \"" ++ e ++ "\"\x7d"
  | none =>
    if fileExists then fileContent
    else dumps default_categories

/-- JSON whitespace. -/
def isWs (c : Char) : Bool :=
  c = ' ' || c = '\n' || c = '\t' || c = '\r'

/-- Drop leading JSON whitespace. -/
def skipWs : List Char → List Char
  | [] => []
  | c :: cs => if isWs c then skipWs cs else c :: cs

/-- Scan a JSON string body (the part after the opening quote) up to
its closing quote, decoding the single-character escapes.  Control
characters must be escaped; `\uXXXX` is not supported (see above). -/
def scanString : List Char → Option (List Char × List Char)
  | [] => none
  | c :: cs =>
    if c = '"' then some ([], cs)
    else if c = '\\' then
      match cs with
      | [] => none
      | e :: cs' =>
        match (if e = '"' then some '"'
               else if e = '\\' then some '\\'
               else if e = '/' then some '/'
               else if e = 'n' then some '\n'
               else if e = 't' then some '\t'
               else if e = 'r' then some '\r'
               else if e = 'b' then some (Char.ofNat 8)
               else if e = 'f' then some (Char.ofNat 12)
               else none) with
        | some d =>
          match scanString cs' with
          | some (s, r) => some (d :: s, r)
          | none => none
        | none => none
    else if c.toNat < 32 then none
    else
      match scanString cs with
      | some (s, r) => some (c :: s, r)
      | none => none

/-- Split off a (possibly empty) run of decimal digits. -/
def scanDigits (cs : List Char) : List Char × List Char :=
  (cs.takeWhile (fun c => c.isDigit), cs.dropWhile (fun c => c.isDigit))

/-- Optional fraction part of a JSON number. -/
def parseFrac : List Char → Option (List Char × List Char)
  | '.' :: t =>
    match scanDigits t with
    | ([], _) => none
    | (fs, r) => some ('.' :: fs, r)
  | cs => some ([], cs)

/-- Optional exponent part of a JSON number. -/
def parseExp : List Char → Option (List Char × List Char)
  | [] => some ([], [])
  | c :: t =>
    if c = 'e' || c = 'E' then
      match t with
      | [] => none
      | s :: t2 =>
        if s = '+' || s = '-' then
          match scanDigits t2 with
          | ([], _) => none
          | (ds, r) => some (c :: s :: ds, r)
        else
          match scanDigits t with
          | ([], _) => none
          | (ds, r) => some (c :: ds, r)
    else some ([], c :: t)

/-- An unsigned JSON number lexeme. -/
def parseUnsignedNum (cs : List Char) : Option (List Char × List Char) :=
  match scanDigits cs with
  | ([], _) => none
  | (ds, r1) =>
    match parseFrac r1 with
    | none => none
    | some (fs, r2) =>
      match parseExp r2 with
      | none => none
      | some (es, r3) => some (ds ++ fs ++ es, r3)

/-- A JSON number lexeme with its optional sign. -/
def parseNumberLit : List Char → Option (List Char × List Char)
  | '-' :: t =>
    (match parseUnsignedNum t with
     | none => none
     | some (ls, r) => some ('-' :: ls, r))
  | cs => parseUnsignedNum cs

mutual

/-- Read one JSON value; the fuel bounds the nesting depth. -/
def parseValue : Nat → List Char → Option (Json × List Char)
  | 0, _ => none
  | fuel + 1, cs =>
    match skipWs cs with
    | [] => none
    | '"' :: rest =>
      (match scanString rest with
       | some (s, r) => some (.str ⟨s⟩, r)
       | none => none)
    | '\x7b' :: rest =>
      (match skipWs rest with
       | '\x7d' :: r2 => some (.obj .nil, r2)
       | r =>
         match parseMembers fuel r with
         | some (ms, r2) => some (.obj ms, r2)
         | none => none)
    | '[' :: rest =>
      (match skipWs rest with
       | ']' :: r2 => some (.arr .nil, r2)
       | r =>
         match parseElems fuel r with
         | some (vs, r2) => some (.arr vs, r2)
         | none => none)
    | 't' :: 'r' :: 'u' :: 'e' :: rest => some (.bool true, rest)
    | 'f' :: 'a' :: 'l' :: 's' :: 'e' :: rest => some (.bool false, rest)
    | 'n' :: 'u' :: 'l' :: 'l' :: rest => some (.null, rest)
    | cs' =>
      match parseNumberLit cs' with
      | some (ls, r) => some (.num ⟨ls⟩, r)
      | none => none

/-- Read the members of a non-empty object, starting at a key. -/
def parseMembers : Nat → List Char → Option (JsonObj × List Char)
  | 0, _ => none
  | fuel + 1, cs =>
    match cs with
    | '"' :: rest =>
      (match scanString rest with
       | none => none
       | some (k, r1) =>
         match skipWs r1 with
         | ':' :: r2 =>
           (match parseValue fuel r2 with
            | none => none
            | some (v, r3) =>
              match skipWs r3 with
              | ',' :: r4 =>
                (match parseMembers fuel (skipWs r4) with
                 | none => none
                 | some (ms, r5) => some (.cons ⟨k⟩ v ms, r5))
              | '\x7d' :: r4 => some (.cons ⟨k⟩ v .nil, r4)
              | _ => none)
         | _ => none)
    | _ => none

/-- Read the elements of a non-empty array. -/
def parseElems : Nat → List Char → Option (JsonArr × List Char)
  | 0, _ => none
  | fuel + 1, cs =>
    match parseValue fuel cs with
    | none => none
    | some (v, r) =>
      match skipWs r with
      | ',' :: r2 =>
        (match parseElems fuel r2 with
         | none => none
         | some (vs, r3) => some (.cons v vs, r3))
      | ']' :: r2 => some (.cons v .nil, r2)
      | _ => none

end

/-- Accept a string exactly when it is one well-formed JSON document
(with optional surrounding whitespace), returning its value. -/
def parseJson (s : String) : Option Json :=
  match parseValue (s.data.length + 1) s.data with
  | some (v, rest) =>
    (match skipWs rest with
     | [] => some v
     | _ => none)
  | none => none

/-- Characters that pass through a JSON string literal unchanged: not a
quote, not a backslash, not a control character.  A failure description
made only of such characters survives the unescaped f-string in
`categories` as literal JSON string content. -/
def jsonSafeChar (c : Char) : Bool :=
  !(c == '"') && !(c == '\\') && !(decide (c.toNat < 32))

/-! ### Order lemmas for the embedded comparisons -/

theorem char_eq_of_toNat_eq {a b : Char} (h : a.toNat = b.toNat) : a = b :=
  Char.eq_of_val_eq (UInt32.ext h)

theorem char_lt_iff_toNat_lt {a b : Char} : a < b ↔ a.toNat < b.toNat := by
  rw [Char.lt_iff_val_lt_val]
  exact Iff.rfl

theorem lexLt_irrefl (l : List Char) : lexLt l l = false := by
  induction l with
  | nil => rfl
  | cons a as ih => simp [lexLt, ih]

theorem lexLt_trans : ∀ a b c : List Char,
    lexLt a b = true → lexLt b c = true → lexLt a c = true := by
  intro a
  induction a with
  | nil =>
    intro b c hab hbc
    cases c with
    | nil => cases b <;> simp [lexLt] at hbc
    | cons z zs => rfl
  | cons x xs ih =>
    intro b c hab hbc
    cases b with
    | nil => simp [lexLt] at hab
    | cons y ys =>
      cases c with
      | nil => simp [lexLt] at hbc
      | cons z zs =>
        simp only [lexLt, Bool.or_eq_true, decide_eq_true_eq, Bool.and_eq_true,
          beq_iff_eq] at hab hbc ⊢
        rcases hab with h1 | ⟨he1, h1⟩ <;> rcases hbc with h2 | ⟨he2, h2⟩
        · exact Or.inl (h1.trans h2)
        · exact Or.inl (he2 ▸ h1)
        · exact Or.inl (he1 ▸ h2)
        · exact Or.inr ⟨he1.trans he2, ih ys zs h1 h2⟩

theorem lexLt_connex : ∀ a b : List Char,
    lexLt a b = false → lexLt b a = false → a = b := by
  intro a
  induction a with
  | nil =>
    intro b h1 _
    cases b with
    | nil => rfl
    | cons y ys => simp [lexLt] at h1
  | cons x xs ih =>
    intro b h1 h2
    cases b with
    | nil => simp [lexLt] at h2
    | cons y ys =>
      simp only [lexLt, Bool.or_eq_false_iff, decide_eq_false_iff_not,
        Bool.and_eq_false_iff, beq_eq_false_iff_ne, ne_eq] at h1 h2
      have hxy : x = y :=
        char_eq_of_toNat_eq (Nat.le_antisymm (Nat.le_of_not_lt h2.1) (Nat.le_of_not_lt h1.1))
      rcases h1.2 with hne | hlt1
      · exact absurd hxy hne
      · rcases h2.2 with hne | hlt2
        · exact absurd hxy.symm hne
        · exact hxy ▸ congrArg (x :: ·) (ih ys hlt1 hlt2)

theorem lexLt_asymm {a b : List Char} (h : lexLt a b = true) : lexLt b a = false := by
  by_contra h'
  have hba : lexLt b a = true := by
    cases hba : lexLt b a with
    | false => exact absurd hba h'
    | true => rfl
  have hirr := lexLt_trans a b a h hba
  rw [lexLt_irrefl] at hirr
  exact Bool.false_ne_true hirr

theorem string_data_inj {s t : String} (h : s.data = t.data) : s = t := by
  cases s
  cases t
  exact congrArg String.mk h

theorem lexLt_iff_lex : ∀ l1 l2 : List Char,
    lexLt l1 l2 = true ↔ List.Lex (fun c d => c < d) l1 l2 := by
  intro l1
  induction l1 with
  | nil =>
    intro l2
    cases l2 with
    | nil =>
      constructor
      · intro h
        simp [lexLt] at h
      · intro h
        nomatch h
    | cons y ys => exact ⟨fun _ => List.Lex.nil, fun _ => rfl⟩
  | cons x xs ih =>
    intro l2
    cases l2 with
    | nil =>
      constructor
      · intro h
        simp [lexLt] at h
      · intro h
        nomatch h
    | cons y ys =>
      simp only [lexLt, Bool.or_eq_true, decide_eq_true_eq, Bool.and_eq_true, beq_iff_eq]
      constructor
      · rintro (h | ⟨he, h⟩)
        · exact List.Lex.rel (char_lt_iff_toNat_lt.mpr h)
        · subst he
          exact List.Lex.cons ((ih ys).mp h)
      · intro h
        cases h with
        | cons h' => exact Or.inr ⟨rfl, (ih ys).mpr h'⟩
        | rel h' => exact Or.inl (char_lt_iff_toNat_lt.mp h')

/-- `strLtB` coincides with the lexicographic strict order on `String`
from the order library: the comparison the spec means by
"lexicographic string comparison". -/
theorem strLtB_iff_lt {a b : String} : strLtB a b = true ↔ a < b := by
  rw [String.lt_iff_toList_lt]
  exact lexLt_iff_lex a.data b.data

/-- `strLeB` coincides with the lexicographic order `≤` on `String`. -/
theorem strLeB_iff_le {a b : String} : strLeB a b = true ↔ a ≤ b := by
  rw [strLeB, Bool.not_eq_true', ← not_lt, ← strLtB_iff_lt]
  simp

/-- `strLeB` agrees with deciding `≤` on strings. -/
theorem strLeB_eq_decide (a b : String) : strLeB a b = decide (a ≤ b) := by
  by_cases h : a ≤ b
  · rw [strLeB_iff_le.mpr h, decide_eq_true h]
  · have h1 : strLeB a b = false :=
      Bool.eq_false_iff.mpr (fun hh => h (strLeB_iff_le.mp hh))
    rw [h1, decide_eq_false h]

theorem rowRel_trans : ∀ r1 r2 r3 : Row, RowRel r1 r2 → RowRel r2 r3 → RowRel r1 r3 := by
  intro r1 r2 r3 h12 h23
  rcases h12 with h12 | ⟨e12, i12⟩ <;> rcases h23 with h23 | ⟨e23, i23⟩
  · exact Or.inl (lexLt_trans _ _ _ h23 h12)
  · exact Or.inl (e23 ▸ h12)
  · exact Or.inl (e12.symm ▸ h23)
  · exact Or.inr ⟨e12.trans e23, Nat.le_trans i23 i12⟩

theorem rowRel_total : ∀ r1 r2 : Row, RowRel r1 r2 ∨ RowRel r2 r1 := by
  intro r1 r2
  by_cases hd : r1.date = r2.date
  · rcases Nat.le_total r2.id r1.id with h | h
    · exact Or.inl (Or.inr ⟨hd, h⟩)
    · exact Or.inr (Or.inr ⟨hd.symm, h⟩)
  · cases h1 : strLtB r2.date r1.date with
    | true => exact Or.inl (Or.inl h1)
    | false =>
      cases h2 : strLtB r1.date r2.date with
      | true => exact Or.inr (Or.inl h2)
      | false =>
        exact absurd (string_data_inj (lexLt_connex _ _ h2 h1)) hd

theorem aggRel_trans : ∀ g1 g2 g3 : Agg, AggRel g1 g2 → AggRel g2 g3 → AggRel g1 g3 :=
  fun _ _ _ h12 h23 => le_trans h23 h12

theorem aggRel_total : ∀ g1 g2 : Agg, AggRel g1 g2 ∨ AggRel g2 g1 :=
  fun g1 g2 => le_total g2.total_amount g1.total_amount

/-! ### Claims about the storage operations -/

/-- C2: error containment — for every input, a storage failure `e`
raised during `add_expense`, `list_expenses` or `summarize` makes the
operation return the structured value `{status := "error",
message := e}` instead of letting the fault propagate. -/
theorem storage_error_containment :
    ∀ (e : String) (s : DB) (d : String) (amt : ℚ) (cat sub note a b : String)
      (c : Option String),
    add_expense (some e) s d amt cat sub note = Except.error ⟨"error", e⟩ ∧
    list_expenses (some e) s a b = Except.error ⟨"error", e⟩ ∧
    summarize (some e) s a b c = Except.error ⟨"error", e⟩ :=
  fun _ _ _ _ _ _ _ _ _ _ => ⟨rfl, rfl, rfl⟩

theorem runOps_lb : ∀ (ops : List SOp) (s : DB), ∀ i ∈ (runOps s ops).1, s.next_id ≤ i := by
  intro ops
  induction ops with
  | nil =>
    intro s i hi
    simp [runOps] at hi
  | cons op ops ih =>
    intro s i hi
    cases op with
    | addE d amt c su n =>
      simp only [runOps] at hi
      rcases List.mem_cons.mp hi with rfl | hm
      · exact le_refl _
      · exact Nat.le_of_succ_le (ih _ _ hm)
    | initE =>
      simp only [runOps] at hi
      exact Nat.le_of_succ_le (ih _ _ hi)

/-- At the level of the written storage statements: across any sequence
of `INSERT`s (with `init_db` runs, the only deletions in the system,
allowed anywhere in between), the AUTOINCREMENT identifiers handed out
are strictly increasing, hence never repeated and never reused.  No
actual `add_expense` call ever reaches its `INSERT` (see
`add_expense_never_succeeds`). -/
theorem add_ids_strictly_increasing :
    ∀ (s : DB) (ops : List SOp), ((runOps s ops).1).Pairwise (fun i j => i < j) := by
  intro s ops
  induction ops generalizing s with
  | nil => simp [runOps]
  | cons op ops ih =>
    cases op with
    | addE d amt c su n =>
      simp only [runOps]
      refine List.Pairwise.cons ?_ (ih _)
      intro j hj
      exact Nat.lt_of_succ_le (runOps_lb ops _ j hj)
    | initE => simpa [runOps] using ih (init_db s)

/-- C9 counterexample: a pre-existing persisted record whose category
happens to be `'test'` is deleted by initialization, because
`init_db`'s cleanup statement is `DELETE FROM expenses WHERE category =
'test'` and not a delete of the just-inserted sentinel row only. -/
theorem init_db_deletes_user_row :
    (⟨5, "2024-05-01", 10, "test", "", ""⟩ : Row) ∈
      (⟨[⟨5, "2024-05-01", 10, "test", "", ""⟩], 6⟩ : DB).rows ∧
    (⟨5, "2024-05-01", 10, "test", "", ""⟩ : Row) ∉
      (init_db ⟨[⟨5, "2024-05-01", 10, "test", "", ""⟩], 6⟩).rows := by
  decide

/-- C9 (amended): initialization deletes exactly the rows whose
category is `'test'` — the sentinel it just inserted together with any
pre-existing `'test'`-category records — and leaves every other
persisted record unchanged. -/
theorem init_db_frame :
    ∀ s : DB, (init_db s).rows = s.rows.filter (fun r => !(r.category == "test")) := by
  intro s
  simp [init_db, List.filter_append]

/-- The written (never-reached) `SELECT` of `list_expenses` computes
exactly the stored records whose date lies in `[start_date, end_date]`
under lexicographic string comparison (as a permutation of that
filtered list), sorted by date descending with ties broken by
identifier descending.  The tool itself never returns these rows (see
`list_expenses_never_returns_rows`). -/
theorem list_range_filter_and_ordering :
    ∀ (s : DB) (a b : String),
    (list_expenses_sql s a b).Perm
      (s.rows.filter (fun r => decide (a ≤ r.date ∧ r.date ≤ b))) ∧
    (list_expenses_sql s a b).Pairwise
      (fun r1 r2 => r2.date < r1.date ∨ (r1.date = r2.date ∧ r2.id ≤ r1.id)) := by
  intro s a b
  constructor
  · have hperm := List.perm_insertionSort RowRel (s.rows.filter (inRange a b))
    have hfe : s.rows.filter (inRange a b)
        = s.rows.filter (fun r => decide (a ≤ r.date ∧ r.date ≤ b)) := by
      apply List.filter_congr
      intro r _
      simp [inRange, strLeB_eq_decide]
    have hstep : (s.rows.filter (inRange a b)).Perm
        (s.rows.filter (fun r => decide (a ≤ r.date ∧ r.date ≤ b))) := by
      rw [hfe]
    exact hperm.trans hstep
  · haveI ht1 : IsTotal Row RowRel := ⟨rowRel_total⟩
    haveI ht2 : IsTrans Row RowRel := ⟨rowRel_trans⟩
    have hs := List.sorted_insertionSort RowRel (s.rows.filter (inRange a b))
    exact List.Pairwise.imp
      (fun h => h.imp (fun hlt => strLtB_iff_lt.mp hlt) id) hs

/-- At the level of the written SQL: from any well-formed table state,
the `INSERT` of `add_expense` followed by the `SELECT` of
`list_expenses` over a range covering the inserted date would yield
exactly one record all six of whose fields equal the inserted values.
No execution of the program performs this round trip (see
`round_trip_never_occurs`). -/
theorem round_trip_add_list :
    ∀ (s : DB) (d : String) (amt : ℚ) (cat sub note : String) (a b : String),
    s.WF → a ≤ d → d ≤ b →
    (list_expenses_sql (add_expense_sql s d amt cat sub note).2 a b).countP
      (fun r => r == ⟨(add_expense_sql s d amt cat sub note).1, d, amt, cat, sub, note⟩)
      = 1 := by
  intro s d amt cat sub note a b hwf h1 h2
  simp only [add_expense_sql, list_expenses_sql]
  rw [List.Perm.countP_eq _ (List.perm_insertionSort _ _)]
  rw [List.countP_filter, List.countP_append]
  have hz : List.countP
      (fun r => (r == (⟨s.next_id, d, amt, cat, sub, note⟩ : Row)) && inRange a b r)
      s.rows = 0 := by
    rw [List.countP_eq_zero]
    intro r hr
    have hlt : r.id < s.next_id := hwf r hr
    have hne : r ≠ (⟨s.next_id, d, amt, cat, sub, note⟩ : Row) := by
      intro he
      rw [he] at hlt
      exact lt_irrefl _ hlt
    simp [hne]
  rw [hz]
  simp [List.countP_cons, inRange, strLeB_iff_le.mpr h1, strLeB_iff_le.mpr h2]

/-- The sql-level round trip at a concrete input. -/
theorem round_trip_add_list_witness :
    (list_expenses_sql
        (add_expense_sql ⟨[], 1⟩ ("2024-03-01") 10 ("Food & Dining") ("") ("")).2
        ("2024-03-01") ("2024-03-01")).countP
      (fun r => r ==
        ⟨(add_expense_sql ⟨[], 1⟩ ("2024-03-01") 10 ("Food & Dining") ("") ("")).1,
         "2024-03-01", 10, "Food & Dining", "", ""⟩) = 1 :=
  round_trip_add_list ⟨[], 1⟩ ("2024-03-01") 10 ("Food & Dining") ("") ("")
    ("2024-03-01") ("2024-03-01")
    (fun r hr => absurd hr (List.not_mem_nil r)) (le_refl _) (le_refl _)

theorem sum_map_filter_split (p : Row → Bool) (v : Row → ℚ) :
    ∀ l : List Row,
    ((l.filter p).map v).sum + ((l.filter (fun x => !(p x))).map v).sum
      = (l.map v).sum := by
  intro l
  induction l with
  | nil => simp
  | cons x xs ih =>
    by_cases hx : p x = true
    · simp only [List.filter_cons, hx, Bool.not_true, if_pos, if_neg, List.map_cons,
        List.sum_cons, Bool.false_eq_true, ite_false, ite_true]
      rw [← ih]
      ring
    · have hx' : p x = false := Bool.eq_false_iff.mpr hx
      simp only [List.filter_cons, hx', Bool.not_false, List.map_cons, List.sum_cons,
        Bool.false_eq_true, ite_false, ite_true]
      rw [← ih]
      ring

theorem sum_fiber (v : Row → ℚ) (k : Row → String) :
    ∀ (cs : List String) (l : List Row), cs.Nodup → (∀ x ∈ l, k x ∈ cs) →
    ((cs.map (fun c => ((l.filter (fun x => k x == c)).map v).sum)).sum)
      = ((l.map v).sum) := by
  intro cs
  induction cs with
  | nil =>
    intro l _ hcov
    cases l with
    | nil => simp
    | cons x xs => exact absurd (hcov x (List.mem_cons_self x xs)) (List.not_mem_nil _)
  | cons c cs' ih =>
    intro l hnd hcov
    simp only [List.map_cons, List.sum_cons]
    have hnd' := List.nodup_cons.mp hnd
    have hmap : cs'.map (fun c' => ((l.filter (fun x => k x == c')).map v).sum)
        = cs'.map (fun c' =>
            (((l.filter (fun x => !(k x == c))).filter (fun x => k x == c')).map v).sum) := by
      apply List.map_congr_left
      intro c' hc'
      have hcc : c' ≠ c := fun he => hnd'.1 (he ▸ hc')
      rw [List.filter_filter]
      have hfc : l.filter (fun x => k x == c')
          = l.filter (fun x => (k x == c') && !(k x == c)) := by
        apply List.filter_congr
        intro x _
        cases hkx : (k x == c') with
        | false => simp
        | true =>
          have hx : k x = c' := beq_iff_eq.mp hkx
          simp [hx, hcc]
      rw [hfc]
    rw [hmap]
    have hcov2 : ∀ x ∈ l.filter (fun x => !(k x == c)), k x ∈ cs' := by
      intro x hx
      rcases List.mem_filter.mp hx with ⟨hxl, hxp⟩
      rcases List.mem_cons.mp (hcov x hxl) with he | hm
      · rw [he] at hxp
        simp at hxp
      · exact hm
    rw [ih (l.filter (fun x => !(k x == c))) hnd'.2 hcov2]
    exact sum_map_filter_split (fun x => k x == c) v l

/-- The written (never-reached) aggregate query of `summarize` computes
per-category rows carrying the exact sum of the amounts and the number
of the in-range records of that category, with the totals summing to
the sum of all in-range amounts.  The tool itself never returns these
rows (see `summarize_returns_no_aggregates`). -/
theorem summarize_aggregate_correct :
    ∀ (s : DB) (a b : String),
    (∀ g ∈ summarize_sql s a b none,
      g.total_amount
          = (((s.rows.filter (inRange a b)).filter
              (fun r => r.category == g.category)).map (fun r => r.amount)).sum ∧
      g.count
          = ((s.rows.filter (inRange a b)).filter
              (fun r => r.category == g.category)).length) ∧
    ((summarize_sql s a b none).map (fun g => g.total_amount)).sum
        = ((s.rows.filter (inRange a b)).map (fun r => r.amount)).sum := by
  intro s a b
  constructor
  · intro g hg
    simp only [summarize_sql] at hg
    have hg2 := (List.perm_insertionSort AggRel _).mem_iff.mp hg
    rcases List.mem_map.mp hg2 with ⟨c, _hc, rfl⟩
    exact ⟨rfl, rfl⟩
  · simp only [summarize_sql]
    rw [List.Perm.sum_eq ((List.perm_insertionSort AggRel _).map (fun g => g.total_amount))]
    rw [List.map_map]
    refine sum_fiber (fun r => r.amount) (fun r => r.category) _ _ (List.nodup_dedup _) ?_
    intro x hx
    exact List.mem_dedup.mpr (List.mem_map_of_mem (fun r => r.category) hx)

/-- The sql-level aggregate property at a concrete input. -/
theorem summarize_aggregate_correct_witness :
    (⟨"Food", (10 : ℚ) + 0, 1⟩ : Agg).total_amount
        = ((((⟨[⟨1, "2024-03-01", 10, "Food", "", ""⟩], 2⟩ : DB).rows.filter
            (inRange ("2024-03-01") ("2024-03-01"))).filter
            (fun r => r.category == (⟨"Food", (10 : ℚ) + 0, 1⟩ : Agg).category)).map
            (fun r => r.amount)).sum ∧
    (⟨"Food", (10 : ℚ) + 0, 1⟩ : Agg).count
        = (((⟨[⟨1, "2024-03-01", 10, "Food", "", ""⟩], 2⟩ : DB).rows.filter
            (inRange ("2024-03-01") ("2024-03-01"))).filter
            (fun r => r.category == (⟨"Food", (10 : ℚ) + 0, 1⟩ : Agg).category)).length :=
  (summarize_aggregate_correct ⟨[⟨1, "2024-03-01", 10, "Food", "", ""⟩], 2⟩
    ("2024-03-01") ("2024-03-01")).1 ⟨"Food", (10 : ℚ) + 0, 1⟩
    (by
      have h : summarize_sql (⟨[⟨1, "2024-03-01", 10, "Food", "", ""⟩], 2⟩ : DB)
          ("2024-03-01") ("2024-03-01") none = [⟨"Food", (10 : ℚ) + 0, 1⟩] := rfl
      rw [h]
      exact List.mem_singleton.mpr rfl)

theorem dedup_map_const {rows : List Row} {c : String} (h0 : rows ≠ [])
    (hall : ∀ x ∈ rows, x.category = c) :
    (rows.map (fun r => r.category)).dedup = [c] := by
  induction rows with
  | nil => exact absurd rfl h0
  | cons r rs ih =>
    have hrc : r.category = c := hall r (List.mem_cons_self _ _)
    cases hrs : rs with
    | nil => simp [hrc]
    | cons r1 rs1 =>
      subst hrs
      have h1 : r1.category = c := hall r1 (List.mem_cons_of_mem _ (List.mem_cons_self _ _))
      have hmem : c ∈ (r1 :: rs1).map (fun r => r.category) := by
        rw [List.map_cons, h1]
        exact List.mem_cons_self _ _
      rw [List.map_cons, hrc, List.dedup_cons_of_mem hmem]
      exact ih (List.cons_ne_nil _ _) (fun x hx => hall x (List.mem_cons_of_mem _ hx))

/-- In the written (never-reached) query construction of `summarize`:
a non-empty category argument restricts the aggregate to that category,
giving exactly one row when some in-range record matches and none
otherwise.  (A supplied empty-string category is falsy in the
`if category:` guard and would disable the filter instead.) -/
theorem summarize_category_filter_nonempty :
    ∀ (s : DB) (a b c : String), c ≠ "" →
    (∀ g ∈ summarize_sql s a b (some c), g.category = c) ∧
    ((∃ r ∈ s.rows.filter (inRange a b), r.category = c) →
      (summarize_sql s a b (some c)).length = 1) ∧
    ((¬ ∃ r ∈ s.rows.filter (inRange a b), r.category = c) →
      summarize_sql s a b (some c) = []) := by
  intro s a b c hc
  have hunf : summarize_sql s a b (some c)
      = List.insertionSort AggRel
          (((((s.rows.filter (inRange a b)).filter (fun r => r.category == c)).map
              (fun r => r.category)).dedup).map (fun d =>
            ⟨d, ((((s.rows.filter (inRange a b)).filter (fun r => r.category == c)).filter
                    (fun r => r.category == d)).map (fun r => r.amount)).sum,
              (((s.rows.filter (inRange a b)).filter (fun r => r.category == c)).filter
                  (fun r => r.category == d)).length⟩)) := by
    simp only [summarize_sql, if_neg hc]
  by_cases hex : ∃ r ∈ s.rows.filter (inRange a b), r.category = c
  · have hne : (s.rows.filter (inRange a b)).filter (fun r => r.category == c) ≠ [] := by
      rcases hex with ⟨r, hr, hrc⟩
      intro hnil
      have hmem : r ∈ (s.rows.filter (inRange a b)).filter (fun r => r.category == c) :=
        List.mem_filter.mpr ⟨hr, beq_iff_eq.mpr hrc⟩
      rw [hnil] at hmem
      exact absurd hmem (List.not_mem_nil r)
    have hded := dedup_map_const hne
      (fun x hx => beq_iff_eq.mp (List.mem_filter.mp hx).2)
    rw [hunf, hded]
    simp only [List.map_cons, List.map_nil, List.insertionSort, List.orderedInsert]
    refine ⟨?_, ?_, ?_⟩
    · intro g hg
      rw [List.mem_singleton.mp hg]
    · intro _
      rfl
    · intro hnex
      exact absurd hex hnex
  · have hnil : (s.rows.filter (inRange a b)).filter (fun r => r.category == c) = [] := by
      rw [List.filter_eq_nil_iff]
      intro r hr hbeq
      exact hex ⟨r, hr, beq_iff_eq.mp hbeq⟩
    rw [hunf, hnil]
    refine ⟨?_, ?_, ?_⟩
    · intro g hg
      simp at hg
    · intro hex2
      exact absurd hex2 hex
    · intro _
      rfl

/-- The sql-level category filter at a concrete input with one matching
record. -/
theorem summarize_category_filter_nonempty_witness :
    (summarize_sql ⟨[⟨1, "2024-03-01", 10, "Food", "", ""⟩], 2⟩
        ("2024-03-01") ("2024-03-01") (some ("Food"))).length = 1 :=
  (summarize_category_filter_nonempty ⟨[⟨1, "2024-03-01", 10, "Food", "", ""⟩], 2⟩
      ("2024-03-01") ("2024-03-01") ("Food") (by decide)).2.1
    ⟨⟨1, "2024-03-01", 10, "Food", "", ""⟩, by decide, rfl⟩

/-- In the written query construction, supplying the empty string as
the category argument does not filter at all — here the query would
produce two aggregate rows (for categories `"a"` and `"b"`). -/
theorem summarize_empty_category_two_rows :
    (summarize_sql
        ⟨[⟨1, "2024-03-01", 10, "a", "", ""⟩, ⟨2, "2024-03-01", 5, "b", "", ""⟩], 3⟩
        ("2024-03-01") ("2024-03-01") (some (""))).length = 2 := by
  have h : summarize_sql
      ⟨[⟨1, "2024-03-01", 10, "a", "", ""⟩, ⟨2, "2024-03-01", 5, "b", "", ""⟩], 3⟩
      ("2024-03-01") ("2024-03-01") (some (""))
      = List.insertionSort AggRel [⟨"a", (10 : ℚ) + 0, 1⟩, ⟨"b", (5 : ℚ) + 0, 1⟩] := rfl
  rw [h, (List.perm_insertionSort AggRel _).length_eq]
  rfl

/-- In the written query construction, an empty-string category leaves
the query identical to the no-category one (`if category:` is false for
`""`), so the computed aggregate would have one row per distinct
category present in the range. -/
theorem summarize_empty_category_ignored :
    ∀ (s : DB) (a b : String),
    summarize_sql s a b (some "") = summarize_sql s a b none ∧
    ((summarize_sql s a b (some "")).map (fun g => g.category)).Perm
      (((s.rows.filter (inRange a b)).map (fun r => r.category)).dedup) := by
  intro s a b
  have he : summarize_sql s a b (some "") = summarize_sql s a b none := rfl
  refine ⟨he, ?_⟩
  rw [he]
  simp only [summarize_sql]
  have hperm := (List.perm_insertionSort AggRel
      ((((s.rows.filter (inRange a b)).map (fun r => r.category)).dedup).map (fun c =>
        (⟨c, (((s.rows.filter (inRange a b)).filter (fun r => r.category == c)).map
              (fun r => r.amount)).sum,
          ((s.rows.filter (inRange a b)).filter (fun r => r.category == c)).length⟩ : Agg)))).map
      (fun g => g.category)
  rw [List.map_map] at hperm
  rw [show ((fun g => (g : Agg).category) ∘ (fun c =>
      (⟨c, (((s.rows.filter (inRange a b)).filter (fun r => r.category == c)).map
            (fun r => r.amount)).sum,
        ((s.rows.filter (inRange a b)).filter (fun r => r.category == c)).length⟩ : Agg)))
      = (fun c => c) from rfl] at hperm
  rw [show List.map (fun c : String => c)
      (((s.rows.filter (inRange a b)).map (fun r => r.category)).dedup)
      = ((s.rows.filter (inRange a b)).map (fun r => r.category)).dedup
      from List.map_id' _] at hperm
  exact hperm

/-! ### Claims about the category resource -/

/-- C6: when no sidecar category file exists (and nothing fails), the
`categories` resource returns `json.dumps` of the object with the
single key `categories` holding the fixed ten-element default list, and
that output parses back as exactly that JSON object. -/
theorem categories_default_ten :
    ∀ content : String,
    categories false content none = dumps default_categories ∧
    parseJson (categories false content none)
      = some (Json.obj (.cons ("categories") (Json.arr
          (.cons (.str ("Food & Dining")) (.cons (.str ("Transportation"))
          (.cons (.str ("Shopping")) (.cons (.str ("Entertainment"))
          (.cons (.str ("Bills & Utilities")) (.cons (.str ("Healthcare"))
          (.cons (.str ("Travel")) (.cons (.str ("Education"))
          (.cons (.str ("Business")) (.cons (.str ("Other")) .nil))))))))))) .nil)) :=
  fun _ => ⟨rfl, rfl⟩

/-- C7 counterexample: a failure description containing a double quote
is interpolated into the f-string without escaping, so the returned
payload `\x7b"error": """\x7d` is not well-formed JSON at all. -/
theorem categories_error_not_json :
    categories false ("") (some ("\"")) = "\x7b\"error\": \"\"\"\x7d" ∧
    parseJson (categories false ("") (some ("\""))) = none :=
  ⟨rfl, rfl⟩

theorem scanString_safe : ∀ (cs rest : List Char),
    (∀ ch ∈ cs, jsonSafeChar ch = true) →
    scanString (cs ++ '"' :: rest) = some (cs, rest) := by
  intro cs
  induction cs with
  | nil =>
    intro rest _
    rw [List.nil_append, scanString.eq_def]
    simp
  | cons c cs' ih =>
    intro rest hall
    have hc := hall c (List.mem_cons_self _ _)
    simp only [jsonSafeChar, Bool.and_eq_true, Bool.not_eq_true', beq_eq_false_iff_ne,
      ne_eq, decide_eq_false_iff_not, not_lt] at hc
    rw [List.cons_append]
    rw [scanString.eq_def]
    simp only []
    rw [if_neg hc.1.1, if_neg hc.1.2, if_neg (not_lt.mpr hc.2)]
    rw [ih rest (fun ch h => hall ch (List.mem_cons_of_mem _ h))]

theorem skipWs_not_ws {c : Char} (h : isWs c = false) :
    ∀ t : List Char, skipWs (c :: t) = c :: t := by
  intro t
  rw [skipWs.eq_def]
  simp [h]

theorem skipWs_ws {c : Char} (h : isWs c = true) :
    ∀ t : List Char, skipWs (c :: t) = skipWs t := by
  intro t
  rw [skipWs.eq_def]
  simp [h]

set_option maxHeartbeats 2000000 in
/-- C7 (amended): for every failure whose description contains only
JSON-safe characters (no quote, no backslash, no control character),
the `categories` resource returns the payload
`\x7b"error": "<description>"\x7d`, which is well-formed JSON consisting of
a single `error` field holding the description.  (The f-string performs
no escaping, so for descriptions with a quote, backslash or control
character the payload is not well-formed JSON — see the
counterexample.) -/
theorem categories_error_shape_safe :
    ∀ (fe : Bool) (content e : String),
    (∀ ch ∈ e.data, jsonSafeChar ch = true) →
    categories fe content (some e) = "\x7b\"error\": \"" ++ e ++ "\"\x7d" ∧
    parseJson (categories fe content (some e))
      = some (Json.obj (.cons ("error") (Json.str e) .nil)) := by
  intro fe content e hsafe
  have hcat : categories fe content (some e) = "\x7b\"error\": \"" ++ e ++ "\"\x7d" := rfl
  refine ⟨hcat, ?_⟩
  rw [hcat]
  have hdata : ("\x7b\"error\": \"" ++ e ++ "\"\x7d").data
      = '\x7b' :: '"' :: (['e', 'r', 'r', 'o', 'r'] ++ '"' :: ':' :: ' ' :: '"' ::
          (e.data ++ '"' :: '\x7d' :: [])) := by
    rw [String.data_append, String.data_append, List.append_assoc]
    rfl
  have hfuel : ("\x7b\"error\": \"" ++ e ++ "\"\x7d").data.length + 1
      = ((e.data.length + 11) + 1 + 1) + 1 := by
    rw [hdata]
    simp only [List.length_cons, List.length_append, List.length_nil]
    omega
  have hw_ob : isWs '\x7b' = false := rfl
  have hw_q : isWs '"' = false := rfl
  have hw_cl : isWs '\x7d' = false := rfl
  have hw_co : isWs ':' = false := rfl
  have hw_sp : isWs ' ' = true := rfl
  have hkey : scanString
      ('e' :: 'r' :: 'r' :: 'o' :: 'r' :: '"' ::
        (':' :: ' ' :: '"' :: (e.data ++ '"' :: '\x7d' :: [])))
      = some (['e', 'r', 'r', 'o', 'r'],
          ':' :: ' ' :: '"' :: (e.data ++ '"' :: '\x7d' :: [])) := by
    have hk := scanString_safe ['e', 'r', 'r', 'o', 'r']
        (':' :: ' ' :: '"' :: (e.data ++ '"' :: '\x7d' :: [])) (by decide)
    simpa using hk
  have hval := scanString_safe e.data ('\x7d' :: []) hsafe
  have hswnil : skipWs [] = ([] : List Char) := rfl
  simp only [parseJson]
  rw [hfuel, hdata]
  simp [parseValue, parseMembers, skipWs_not_ws hw_ob, skipWs_not_ws hw_q,
    skipWs_not_ws hw_cl, skipWs_not_ws hw_co, skipWs_ws hw_sp, hkey, hval, hswnil,
    hw_ob, hw_q, hw_cl, hw_co, hw_sp]

/-- Witness for C7 (amended) at a concrete safe failure description. -/
theorem categories_error_shape_safe_witness :
    categories false ("") (some ("boom")) = "\x7b\"error\": \"" ++ "boom" ++ "\"\x7d" ∧
    parseJson (categories false ("") (some ("boom")))
      = some (Json.obj (.cons ("error") (Json.str ("boom")) .nil)) :=
  categories_error_shape_safe false ("") ("boom") (by decide)

/-! ### Claims about the tools as actually executed

Every tool body opens with `async with sqlite3.connect(DB_PATH)`; the
synchronous `sqlite3.Connection` does not implement the asynchronous
context manager protocol, so each call raises `TypeError` there —
before any SQL statement executes — and the `except` clause converts it
to the structured error payload.  The theorems below evaluate the tools
on that real path, for every input and every rendering `msg` of the
`TypeError`. -/

/-- C1: the round trip never occurs — every `add_expense` call raises
`TypeError` at `async with` and returns the structured error payload
(so no expense is ever inserted and no success payload with an id is
ever returned), and every `list_expenses` call fails the same way, so
a successful add followed by a listing of the inserted record is
impossible in the program as written. -/
theorem round_trip_never_occurs :
    ∀ (msg : String) (s : DB) (d : String) (amt : ℚ) (c su n a b : String),
    add_expense_call msg s d amt c su n = Except.error ⟨"error", msg⟩ ∧
    list_expenses_call msg s a b = Except.error ⟨"error", msg⟩ :=
  fun _ _ _ _ _ _ _ _ _ => ⟨rfl, rfl⟩

/-- C3: `summarize` never returns aggregate rows — every call, with or
without a category argument, fails with the `TypeError` at `async with`
and returns the structured error payload, so no returned total ever
equals (or sums to) anything: the aggregate-correctness claim is about
a result the program never produces. -/
theorem summarize_returns_no_aggregates :
    ∀ (msg : String) (s : DB) (a b : String) (c : Option String),
    summarize_call msg s a b c = Except.error ⟨"error", msg⟩ :=
  fun _ _ _ _ _ => rfl

/-- C4: `list_expenses` never returns records — every call fails with
the `TypeError` at `async with` and returns the structured error
payload, so the filtered, sorted record list the claim describes is
never produced by the program. -/
theorem list_expenses_never_returns_rows :
    ∀ (msg : String) (s : DB) (a b : String),
    list_expenses_call msg s a b = Except.error ⟨"error", msg⟩ :=
  fun _ _ _ _ => rfl

/-- C5: supplying a category argument changes nothing — the call fails
with the `TypeError` at `async with` before the query (and its
`if category:` guard) is even built, and returns the structured error
payload instead of the single per-category aggregate row the claim
describes. -/
theorem summarize_with_category_errors :
    ∀ (msg : String) (s : DB) (a b c : String),
    summarize_call msg s a b (some c) = Except.error ⟨"error", msg⟩ :=
  fun _ _ _ _ _ => rfl

/-- C8: no `add_expense` call ever succeeds — every call fails with the
`TypeError` at `async with` before the `INSERT` runs, so no identifier
is ever assigned or returned through the tool and the id-monotonicity
claim quantifies over an empty set of successful calls. -/
theorem add_expense_never_succeeds :
    ∀ (msg : String) (s : DB) (d : String) (amt : ℚ) (c su n : String),
    add_expense_call msg s d amt c su n = Except.error ⟨"error", msg⟩ :=
  fun _ _ _ _ _ _ _ => rfl

/-- C10 counterexample: with a record present in range, `summarize`
called with the empty-string category returns the structured error
payload — the call fails at `async with` before the query is built —
and not one aggregate row per distinct in-range category. -/
theorem summarize_empty_category_errors_cex :
    summarize_call
      ("sqlite3.Connection object does not support the asynchronous context manager protocol")
      ⟨[⟨1, "2024-03-01", 10, "Food", "", ""⟩], 2⟩
      ("2024-03-01") ("2024-03-01") (some (""))
      = Except.error ⟨"error",
          "sqlite3.Connection object does not support the asynchronous context manager protocol"⟩ :=
  rfl

/-- C10 (amended): calling `summarize` with the empty string as the
category argument behaves exactly as calling it with no category
argument at all — but that shared behavior is returning the structured
error payload (every call fails with `TypeError` at `async with` before
the query is built), never aggregate rows; and in the written,
never-executed query construction the empty string is likewise falsy in
`if category:`, leaving the query identical to the no-category one. -/
theorem summarize_empty_category_same_as_none :
    ∀ (msg : String) (s : DB) (a b : String),
    summarize_call msg s a b (some "") = summarize_call msg s a b none ∧
    summarize_call msg s a b (some "") = Except.error ⟨"error", msg⟩ ∧
    summarize_sql s a b (some "") = summarize_sql s a b none :=
  fun _ _ _ _ => ⟨rfl, rfl, rfl⟩
